import Mathlib

/-!
# Verification of the resizable circular queue of `colacircular.c`

Shallow embedding of `createQueue`, `enqueue` and `dequeue`.

Modelling conventions.

* The C `int` fields `capacity`, `size`, `front`, `back` are mathematical
  integers (`Int`).  C division and remainder truncate toward zero, so they
  are `Int.tdiv` and `Int.tmod`.  Signed overflow of `capacity *= 2`
  (undefined behaviour, only possible for a capacity of at least `2^30`) is
  outside the model.
* `buffer` is the list of the slots of the allocated array.  A slot holds
  `some v` once it has been written and `none` while it is uninitialised
  (`malloc` and the tail of a growing `realloc` return uninitialised memory).
* The mutex and the condition variables do not appear: the model is the
  sequential behaviour of one call executed under the lock.  A `dequeue` on
  an empty queue waits on `not_empty`; in a sequential run nobody can signal
  it, so the model reports `Fault.blocked`.
* An array access outside the allocated slots and a remainder by zero are
  undefined behaviour; the model reports them as faults.
* The `while` loop of `enqueue` is run with fuel: the number of times its
  body may execute.  Running out of fuel is `Fault.outOfFuel`.
* The lines that a call prints to `log` are returned as a list.
-/

namespace Paginacion

/-- Ways in which a call does not return normally. -/
inductive Fault where
  | blocked
  | outOfFuel
  | outOfBounds
  | divByZero
deriving DecidableEq, Repr

/-- Result of a call: a value or a fault. -/
inductive Res (α : Type) where
  | ok (a : α)
  | fail (f : Fault)
deriving DecidableEq, Repr

/-- The resize lines written to the log file. -/
inductive LogLine where
  | duplicada (capacity : Int)
  | reducida (capacity : Int)
deriving DecidableEq, Repr

/-- The fields of `CircularQueue` other than the synchronisation objects. -/
structure CircularQueue where
  buffer : List (Option Int)
  capacity : Int
  size : Int
  front : Int
  back : Int
deriving DecidableEq, Repr

/-- The `n` uninitialised slots returned by `malloc(n * sizeof(int))`;
a negative `n` gives no usable slot. -/
def malloc (n : Int) : List (Option Int) :=
  List.replicate n.toNat none

/-- The array returned by `realloc(buf, n * sizeof(int))`: the old slots up to
the new length, followed by uninitialised slots. -/
def realloc (buf : List (Option Int)) (n : Int) : List (Option Int) :=
  buf.take n.toNat ++ List.replicate (n.toNat - buf.length) none

/-- The read `buf[i]`. -/
def readAt (buf : List (Option Int)) (i : Int) : Res (Option Int) :=
  if 0 ≤ i ∧ i < buf.length then .ok (buf.getD i.toNat none) else .fail .outOfBounds

/-- The write `buf[i] = v`. -/
def writeAt (buf : List (Option Int)) (i : Int) (v : Option Int) :
    Res (List (Option Int)) :=
  if 0 ≤ i ∧ i < buf.length then .ok (buf.set i.toNat v) else .fail .outOfBounds

/-- The C expression `a % b`. -/
def cmod (a b : Int) : Res Int :=
  if b = 0 then .fail .divByZero else .ok (Int.tmod a b)

/-- Source: `createQueue`. -/
def createQueue (capacity : Int) : CircularQueue :=
  { buffer := malloc capacity
    capacity := capacity
    size := 0
    front := 0
    back := -1 }

/-- The `while (queue->size == queue->capacity)` loop of `enqueue`; `fuel`
bounds the number of executions of its body. -/
def growLoop : Nat → CircularQueue → List LogLine → Res (CircularQueue × List LogLine)
  | fuel, queue, log =>
    if queue.size = queue.capacity then
      match fuel with
      | 0 => .fail .outOfFuel
      | fuel + 1 =>
        growLoop fuel
          { queue with
            capacity := queue.capacity * 2
            buffer := realloc queue.buffer (queue.capacity * 2) }
          (log ++ [LogLine.duplicada (queue.capacity * 2)])
    else .ok (queue, log)

/-- Source: `enqueue`.  Returns the new queue and the lines logged. -/
def enqueue (fuel : Nat) (queue : CircularQueue) (item : Int) :
    Res (CircularQueue × List LogLine) :=
  match growLoop fuel queue [] with
  | .fail f => .fail f
  | .ok (queue, log) =>
    match cmod (queue.back + 1) queue.capacity with
    | .fail f => .fail f
    | .ok back =>
      match writeAt queue.buffer back (some item) with
      | .fail f => .fail f
      | .ok buffer =>
        .ok ({ queue with back := back, buffer := buffer, size := queue.size + 1 }, log)

/-- The copy loop of the shrink branch of `dequeue`: `k` iterations remain,
the loop counter is `i`, and `newBuffer` is the array being filled. -/
def copyLoop (queue : CircularQueue) :
    Nat → Int → List (Option Int) → Res (List (Option Int))
  | 0, _, newBuffer => .ok newBuffer
  | k + 1, i, newBuffer =>
    match cmod (queue.front + i) queue.capacity with
    | .fail f => .fail f
    | .ok j =>
      match readAt queue.buffer j with
      | .fail f => .fail f
      | .ok v =>
        match writeAt newBuffer i v with
        | .fail f => .fail f
        | .ok newBuffer => copyLoop queue k (i + 1) newBuffer

/-- The `if (size <= capacity / 4 && capacity > 1)` block of `dequeue`. -/
def shrinkStep (queue : CircularQueue) : Res (CircularQueue × List LogLine) :=
  if queue.size ≤ Int.tdiv queue.capacity 4 ∧ queue.capacity > 1 then
    let new_capacity := Int.tdiv queue.capacity 2
    match copyLoop queue queue.size.toNat 0 (malloc new_capacity) with
    | .fail f => .fail f
    | .ok newBuffer =>
      .ok ({ queue with
              buffer := newBuffer
              capacity := new_capacity
              front := 0
              back := queue.size },
           [LogLine.reducida new_capacity])
  else .ok (queue, [])

/-- Source: `dequeue`.  Returns the item, the new queue and the lines
logged.  The item is `none` when the slot read was never written. -/
def dequeue (queue : CircularQueue) : Res (Option Int × CircularQueue × List LogLine) :=
  if queue.size = 0 then .fail .blocked
  else
    match shrinkStep queue with
    | .fail f => .fail f
    | .ok (queue, log) =>
      match readAt queue.buffer queue.front with
      | .fail f => .fail f
      | .ok item =>
        match cmod (queue.front + 1) queue.capacity with
        | .fail f => .fail f
        | .ok front =>
          .ok (item, { queue with front := front, size := queue.size - 1 }, log)

/-- A call made by a client of the queue. -/
inductive Op where
  | enq (item : Int)
  | deq
deriving DecidableEq, Repr

/-- Sequential run of a list of calls.  Returns the final queue, the items
returned by the `dequeue` calls, in order, and the lines logged. -/
def run (fuel : Nat) :
    List Op → CircularQueue → Res (CircularQueue × List (Option Int) × List LogLine)
  | [], queue => .ok (queue, [], [])
  | Op.enq item :: ops, queue =>
    match enqueue fuel queue item with
    | .fail f => .fail f
    | .ok (queue, log) =>
      match run fuel ops queue with
      | .fail f => .fail f
      | .ok (queue, outs, log2) => .ok (queue, outs, log ++ log2)
  | Op.deq :: ops, queue =>
    match dequeue queue with
    | .fail f => .fail f
    | .ok (item, queue, log) =>
      match run fuel ops queue with
      | .fail f => .fail f
      | .ok (queue, outs, log2) => .ok (queue, item :: outs, log ++ log2)

/-- The items passed to `enqueue` by a list of calls, in order. -/
def enqueued : List Op → List Int
  | [] => []
  | Op.enq item :: ops => item :: enqueued ops
  | Op.deq :: ops => enqueued ops

/-- The slot `i` steps after `front`, modulo `capacity`: the value of
`buffer[(front + i) % capacity]`.  A slot outside the array reads as `none`. -/
def slot (queue : CircularQueue) (i : Nat) : Option Int :=
  queue.buffer.getD (Int.tmod (queue.front + i) queue.capacity).toNat none

/-- Logical contents: the slots read from `front` for `size` steps modulo
`capacity`. -/
def contents (queue : CircularQueue) : List (Option Int) :=
  (List.range queue.size.toNat).map (slot queue)

/-- The array of a queue has `capacity` slots, `capacity` is positive and
`front` is an index of the array. -/
structure Framed (queue : CircularQueue) : Prop where
  cap_pos : 1 ≤ queue.capacity
  len : (queue.buffer.length : Int) = queue.capacity
  front_lo : 0 ≤ queue.front
  front_hi : queue.front < queue.capacity

/-- The body of the `while` loop of `enqueue`: double `capacity` and
reallocate the array. -/
def growBody (queue : CircularQueue) : CircularQueue :=
  { queue with
    capacity := queue.capacity * 2
    buffer := realloc queue.buffer (queue.capacity * 2) }

theorem cmod_ok (a b : Int) (hb : b ≠ 0) : cmod a b = .ok (Int.tmod a b) := by
  simp [cmod, hb]

theorem readAt_ok (buf : List (Option Int)) (i : Int) (h0 : 0 ≤ i)
    (h1 : i < buf.length) : readAt buf i = .ok (buf.getD i.toNat none) := by
  simp [readAt, h0, h1]

theorem writeAt_ok (buf : List (Option Int)) (i : Int) (v : Option Int) (h0 : 0 ≤ i)
    (h1 : i < buf.length) : writeAt buf i v = .ok (buf.set i.toNat v) := by
  simp [writeAt, h0, h1]

theorem tmod_bounds (a b : Int) (ha : 0 ≤ a) (hb : 1 ≤ b) :
    0 ≤ Int.tmod a b ∧ Int.tmod a b < b ∧ Int.tmod a b = a % b := by
  have h := Int.tmod_eq_emod ha (by omega : (0 : Int) ≤ b)
  have h1 := Int.emod_nonneg a (by omega : b ≠ 0)
  have h2 := Int.emod_lt_of_pos a (by omega : 0 < b)
  omega

/-! ## The copy loop of the shrink branch -/

theorem copyLoop_spec (q : CircularQueue) (hq : Framed q) :
    ∀ (k i : Nat) (nb : List (Option Int)), i + k ≤ nb.length →
      ∃ nb', copyLoop q k (i : Int) nb = .ok nb' ∧ nb'.length = nb.length ∧
        ∀ j : Nat, nb'[j]? = if i ≤ j ∧ j < i + k then some (slot q j) else nb[j]? := by
  intro k
  induction k with
  | zero =>
    intro i nb _
    refine ⟨nb, rfl, rfl, ?_⟩
    intro j
    rw [if_neg (by omega)]
  | succ k ih =>
    intro i nb hik
    obtain ⟨hcap, hlen, hf0, hf1⟩ := hq
    have hb := tmod_bounds (q.front + i) q.capacity (by omega) hcap
    obtain ⟨nb', h1, h2, h3⟩ := ih (i + 1) (nb.set i (slot q i)) (by simp; omega)
    refine ⟨nb', ?_, by simpa using h2, ?_⟩
    · rw [copyLoop, cmod_ok _ _ (by omega)]
      simp only []
      rw [readAt_ok _ _ hb.1 (by omega)]
      simp only []
      rw [writeAt_ok _ _ _ (by omega) (by omega)]
      simp only [Int.toNat_ofNat]
      have : ((i : Int) + 1) = ((i + 1 : Nat) : Int) := by push_cast; rfl
      rw [this]
      exact h1
    · intro j
      rw [h3 j, List.getElem?_set]
      by_cases hij : i = j
      · subst hij
        have : i < nb.length := by omega
        simp [this]
      · simp only [hij, if_false]
        by_cases hj : i + 1 ≤ j ∧ j < i + 1 + k
        · have : i ≤ j ∧ j < i + (k + 1) := by omega
          simp [hj, this]
        · have : ¬ (i ≤ j ∧ j < i + (k + 1)) := by omega
          simp [hj, this]

/-! ## One call of `enqueue` -/

theorem growLoop_skip (fuel : Nat) (q : CircularQueue) (log : List LogLine)
    (h : q.size ≠ q.capacity) : growLoop fuel q log = .ok (q, log) := by
  cases fuel <;> simp [growLoop, h]

theorem enqueue_notfull (fuel : Nat) (q : CircularQueue) (x : Int)
    (hne : q.size ≠ q.capacity) (hcap : 1 ≤ q.capacity)
    (hlen : (q.buffer.length : Int) = q.capacity) (hb : -1 ≤ q.back) :
    enqueue fuel q x = .ok
      ({ q with back := Int.tmod (q.back + 1) q.capacity,
                buffer := q.buffer.set (Int.tmod (q.back + 1) q.capacity).toNat (some x),
                size := q.size + 1 }, []) := by
  have hm := tmod_bounds (q.back + 1) q.capacity (by omega) hcap
  rw [enqueue, growLoop_skip _ _ _ hne]
  simp only []
  rw [cmod_ok _ _ (by omega)]
  simp only []
  rw [writeAt_ok _ _ _ hm.1 (by omega)]

theorem tdiv_pos (a b : Int) (ha : 0 ≤ a) (hb : 0 ≤ b) : Int.tdiv a b = a / b :=
  Int.tdiv_eq_ediv ha hb

theorem dequeue_shrink (q : CircularQueue) (hq : Framed q) (hs : 1 ≤ q.size)
    (hsh : q.size ≤ Int.tdiv q.capacity 4) :
    ∃ nb, dequeue q = .ok (slot q 0,
        { buffer := nb, capacity := Int.tdiv q.capacity 2, size := q.size - 1,
          front := 1, back := q.size },
        [LogLine.reducida (Int.tdiv q.capacity 2)]) ∧
      (nb.length : Int) = Int.tdiv q.capacity 2 ∧
      ∀ j : Nat, nb[j]? =
        if j < q.size.toNat then some (slot q j) else (malloc (Int.tdiv q.capacity 2))[j]? := by
  have hcap := hq.cap_pos
  have h4 := tdiv_pos q.capacity 4 (by omega) (by omega)
  have h2 := tdiv_pos q.capacity 2 (by omega) (by omega)
  rw [h4] at hsh
  have hml : (malloc (Int.tdiv q.capacity 2)).length = (q.capacity / 2).toNat := by
    simp [malloc, h2]
  obtain ⟨nb, e1, e2, e3⟩ := copyLoop_spec q hq q.size.toNat 0
    (malloc (Int.tdiv q.capacity 2)) (by rw [hml]; omega)
  have hc : q.size ≤ Int.tdiv q.capacity 4 ∧ q.capacity > 1 := by
    rw [h4]; constructor <;> omega
  have hnb0 : nb[0]? = some (slot q 0) := by
    rw [e3 0, if_pos (by omega)]
  have hm1 : Int.tmod (0 + 1) (Int.tdiv q.capacity 2) = 1 := by
    have hb := tmod_bounds (0 + 1) (Int.tdiv q.capacity 2) (by omega) (by rw [h2]; omega)
    rw [hb.2.2]
    exact Int.emod_eq_of_lt (by omega) (by rw [h2]; omega)
  refine ⟨nb, ?_, by rw [e2, hml, h2]; omega, ?_⟩
  · rw [dequeue, if_neg (by omega), shrinkStep, if_pos hc]
    simp only [Nat.cast_zero] at e1
    simp only [e1]
    rw [readAt_ok _ _ (le_refl _) (by rw [e2, hml]; omega)]
    simp only []
    rw [cmod_ok _ _ (by rw [h2]; omega), hm1]
    simp [hnb0]
  · intro j
    rw [e3 j]
    by_cases hj : j < q.size.toNat
    · rw [if_pos hj, if_pos (by omega)]
    · rw [if_neg hj, if_neg (by omega)]

theorem dequeue_size (q : CircularQueue) (r : Option Int × CircularQueue × List LogLine)
    (h : dequeue q = .ok r) : q.size ≠ 0 := by
  intro h0
  simp [dequeue, h0] at h

theorem shrinkStep_ok (q q1 : CircularQueue) (log : List LogLine)
    (h : shrinkStep q = .ok (q1, log)) :
    q1.size = q.size ∧
      ((q.size ≤ Int.tdiv q.capacity 4 ∧ q.capacity > 1 ∧
          q1.capacity = Int.tdiv q.capacity 2 ∧
          log = [LogLine.reducida (Int.tdiv q.capacity 2)]) ∨
        (¬ (q.size ≤ Int.tdiv q.capacity 4 ∧ q.capacity > 1) ∧ q1 = q ∧ log = [])) := by
  rw [shrinkStep] at h
  by_cases hc : q.size ≤ Int.tdiv q.capacity 4 ∧ q.capacity > 1
  · rw [if_pos hc] at h
    simp only [] at h
    cases hl : copyLoop q q.size.toNat 0 (malloc (Int.tdiv q.capacity 2)) with
    | fail f => simp [hl] at h
    | ok nb =>
      simp only [hl, Res.ok.injEq, Prod.mk.injEq] at h
      rw [← h.1, ← h.2]
      exact ⟨rfl, Or.inl ⟨hc.1, hc.2, rfl, rfl⟩⟩
  · rw [if_neg hc] at h
    simp only [Res.ok.injEq, Prod.mk.injEq] at h
    rw [← h.1, ← h.2]
    exact ⟨rfl, Or.inr ⟨hc, rfl, rfl⟩⟩

theorem dequeue_ok (q q' : CircularQueue) (item : Option Int) (log : List LogLine)
    (h : dequeue q = .ok (item, q', log)) :
    q.size ≠ 0 ∧ q'.size = q.size - 1 ∧
      ((q.size ≤ Int.tdiv q.capacity 4 ∧ q.capacity > 1 ∧
          q'.capacity = Int.tdiv q.capacity 2 ∧
          log = [LogLine.reducida (Int.tdiv q.capacity 2)]) ∨
        (¬ (q.size ≤ Int.tdiv q.capacity 4 ∧ q.capacity > 1) ∧
          q'.capacity = q.capacity ∧ q'.buffer = q.buffer ∧ log = [])) := by
  have hs := dequeue_size q _ h
  rw [dequeue, if_neg hs] at h
  cases hk : shrinkStep q with
  | fail f => simp [hk] at h
  | ok r =>
    obtain ⟨q1, l1⟩ := r
    obtain ⟨h1, h2⟩ := shrinkStep_ok q q1 l1 hk
    simp only [hk] at h
    cases hr : readAt q1.buffer q1.front with
    | fail f => simp [hr] at h
    | ok v =>
      simp only [hr] at h
      cases hm : cmod (q1.front + 1) q1.capacity with
      | fail f => simp [hm] at h
      | ok fr =>
        simp only [hm, Res.ok.injEq, Prod.mk.injEq] at h
        obtain ⟨-, hq, hl⟩ := h
        rw [← hq, ← hl]
        refine ⟨hs, ?_, ?_⟩
        · show q1.size - 1 = q.size - 1
          rw [h1]
        · rcases h2 with ⟨a, b, c, d⟩ | ⟨a, b, c⟩
          · exact Or.inl ⟨a, b, c, d⟩
          · refine Or.inr ⟨a, ?_, ?_, c⟩
            · show q1.capacity = q.capacity
              rw [b]
            · show q1.buffer = q.buffer
              rw [b]

theorem enqueue_of_growLoop (fuel : Nat) (q q1 q' : CircularQueue) (x : Int)
    (l1 log : List LogLine) (hg : growLoop fuel q [] = .ok (q1, l1))
    (h : enqueue fuel q x = .ok (q', log)) :
    q'.capacity = q1.capacity ∧ q'.size = q1.size + 1 ∧ q'.front = q1.front ∧ log = l1 := by
  rw [enqueue, hg] at h
  simp only [] at h
  cases hm : cmod (q1.back + 1) q1.capacity with
  | fail f => simp [hm] at h
  | ok b =>
    simp only [hm] at h
    cases hw : writeAt q1.buffer b (some x) with
    | fail f => simp [hw] at h
    | ok buf =>
      simp only [hw, Res.ok.injEq, Prod.mk.injEq] at h
      rw [← h.1, ← h.2]
      exact ⟨rfl, rfl, rfl, rfl⟩

/-- C2 (evaluation at the failing input): from `createQueue 2`, the calls
enqueue 1, enqueue 2, dequeue, enqueue 3, enqueue 4, dequeue all return, and
the second dequeue returns 4 although 2 is the oldest item not yet removed;
the items returned are not a prefix of the items enqueued. -/
theorem interleaved_run_breaks_fifo :
    run 1 [Op.enq 1, Op.enq 2, Op.deq, Op.enq 3, Op.enq 4, Op.deq] (createQueue 2)
      = .ok ({ buffer := [some 3, some 4, none, none], capacity := 4, size := 2,
               front := 2, back := 1 },
             [some 1, some 4], [LogLine.duplicada 4]) ∧
    ¬ ([some 1, some 4] <+:
        (enqueued [Op.enq 1, Op.enq 2, Op.deq, Op.enq 3, Op.enq 4, Op.deq]).map some) := by
  decide

/-- C3 (evaluation at the failing input): the state reached from
`createQueue 2` by enqueue 1, enqueue 2, dequeue, enqueue 3 is full and
wrapped, with logical contents 2, 3; enqueue 4 on it grows the array in place
and overwrites the slot of 2, leaving logical contents 4 followed by two
uninitialised slots instead of 2, 3, 4. -/
theorem grow_on_wrapped_queue_loses_order :
    run 1 [Op.enq 1, Op.enq 2, Op.deq, Op.enq 3] (createQueue 2)
      = .ok ({ buffer := [some 3, some 2], capacity := 2, size := 2, front := 1, back := 0 },
             [some 1], []) ∧
    contents { buffer := [some 3, some 2], capacity := 2, size := 2, front := 1, back := 0 }
      = [some 2, some 3] ∧
    enqueue 1 { buffer := [some 3, some 2], capacity := 2, size := 2, front := 1, back := 0 } 4
      = .ok ({ buffer := [some 3, some 4, none, none], capacity := 4, size := 3,
               front := 1, back := 1 }, [LogLine.duplicada 4]) ∧
    contents { buffer := [some 3, some 4, none, none], capacity := 4, size := 3,
               front := 1, back := 1 }
      = [some 4, none, none] := by
  decide

/-- C5: the scenario `createQueue(4)`; enqueue 10, 20, 30, 40 (capacity 4,
size 4); enqueue 50 (capacity 8, size 5); five dequeues return 10, 20, 30, 40,
50; after the fourth dequeue the capacity is 4. -/
theorem scenario_capacity_four :
    run 1 [Op.enq 10, Op.enq 20, Op.enq 30, Op.enq 40] (createQueue 4)
      = .ok ({ buffer := [some 10, some 20, some 30, some 40], capacity := 4, size := 4,
               front := 0, back := 3 }, [], []) ∧
    run 1 [Op.enq 10, Op.enq 20, Op.enq 30, Op.enq 40, Op.enq 50] (createQueue 4)
      = .ok ({ buffer := [some 10, some 20, some 30, some 40, some 50, none, none, none],
               capacity := 8, size := 5, front := 0, back := 4 },
             [], [LogLine.duplicada 8]) ∧
    run 1 [Op.enq 10, Op.enq 20, Op.enq 30, Op.enq 40, Op.enq 50,
           Op.deq, Op.deq, Op.deq, Op.deq] (createQueue 4)
      = .ok ({ buffer := [some 40, some 50, none, none], capacity := 4, size := 1,
               front := 1, back := 2 },
             [some 10, some 20, some 30, some 40],
             [LogLine.duplicada 8, LogLine.reducida 4]) ∧
    run 1 [Op.enq 10, Op.enq 20, Op.enq 30, Op.enq 40, Op.enq 50,
           Op.deq, Op.deq, Op.deq, Op.deq, Op.deq] (createQueue 4)
      = .ok ({ buffer := [some 50, none], capacity := 2, size := 0, front := 1, back := 1 },
             [some 10, some 20, some 30, some 40, some 50],
             [LogLine.duplicada 8, LogLine.reducida 4, LogLine.reducida 2]) :=
  ⟨by decide, by decide, by decide, by decide⟩

/-- C9 (counterexample): `createQueue(0)` returns a queue whose capacity is
the capacity asked for, `0`, although `0 < 1`. -/
theorem createQueue_zero_returns_queue :
    (0 : Int) < 1 ∧ (createQueue 0).capacity = 0 ∧
    createQueue 0 = { buffer := [], capacity := 0, size := 0, front := 0, back := -1 } := by
  decide

/-- C9 (amended): `createQueue` checks nothing: for every `c`, also `c < 1`,
it returns a queue with capacity `c`, size `0`, front `0` and back `-1`; the
array has `c` slots when `c ≥ 0` and no slot otherwise. -/
theorem createQueue_any_capacity (c : Int) :
    (createQueue c).capacity = c ∧ (createQueue c).size = 0 ∧
    (createQueue c).front = 0 ∧ (createQueue c).back = -1 ∧
    (createQueue c).buffer.length = c.toNat := by
  simp [createQueue, malloc]

theorem dequeue_ok_noshrink (q q' : CircularQueue) (item : Option Int) (log : List LogLine)
    (hno : ¬ (q.size ≤ Int.tdiv q.capacity 4 ∧ q.capacity > 1))
    (h : dequeue q = .ok (item, q', log)) :
    item = q.buffer.getD q.front.toNat none ∧
      q' = { q with front := Int.tmod (q.front + 1) q.capacity, size := q.size - 1 } ∧
      log = [] := by
  have hs := dequeue_size q _ h
  rw [dequeue, if_neg hs, shrinkStep, if_neg hno] at h
  simp only [readAt, cmod] at h
  by_cases hb : 0 ≤ q.front ∧ q.front < q.buffer.length
  · rw [if_pos hb] at h
    by_cases hz : q.capacity = 0
    · simp [hz] at h
    · simp only [if_neg hz, Res.ok.injEq, Prod.mk.injEq] at h
      exact ⟨h.1.symm, h.2.1.symm, h.2.2.symm⟩
  · simp [if_neg hb] at h

theorem dequeue_returns_noshrink (q : CircularQueue) (hs : q.size ≠ 0)
    (hno : ¬ (q.size ≤ Int.tdiv q.capacity 4 ∧ q.capacity > 1))
    (hf0 : 0 ≤ q.front) (hf1 : q.front < q.buffer.length) (hc : q.capacity ≠ 0) :
    dequeue q = .ok (q.buffer.getD q.front.toNat none,
      { q with front := Int.tmod (q.front + 1) q.capacity, size := q.size - 1 }, []) := by
  rw [dequeue, if_neg hs, shrinkStep, if_neg hno]
  simp only []
  rw [readAt_ok _ _ hf0 hf1]
  simp only []
  rw [cmod_ok _ _ hc]

theorem growLoop_succ (fuel : Nat) (q : CircularQueue) (log : List LogLine)
    (h : q.size = q.capacity) :
    growLoop (fuel + 1) q log
      = growLoop fuel (growBody q) (log ++ [LogLine.duplicada (q.capacity * 2)]) := by
  rw [growLoop, if_pos h]
  rfl

theorem growLoop_capacity_zero (fuel : Nat) :
    ∀ log, growLoop fuel (createQueue 0) log = .fail .outOfFuel := by
  induction fuel with
  | zero => intro log; rfl
  | succ n ih =>
    intro log
    rw [growLoop_succ n (createQueue 0) log rfl]
    exact ih _

/-- C11: on every state with `size ≥ 1` and `size > capacity / 4` or
`capacity = 1`, a returning `dequeue` has not shrunk: it returns the element at
`front`, the new state differs from the old one only by
`front = (front + 1) % capacity` and `size - 1` (so `capacity` and the array
are unchanged), and nothing is logged; the call returns when `front` is an
index of an array of `capacity` slots.  On a queue created with capacity 1
that holds one enqueued item, `dequeue` returns it and the capacity stays 1. -/
theorem dequeue_without_shrink (q : CircularQueue) (hs : 1 ≤ q.size)
    (hno : Int.tdiv q.capacity 4 < q.size ∨ q.capacity = 1) :
    (∀ item q' log, dequeue q = .ok (item, q', log) →
      item = q.buffer.getD q.front.toNat none ∧
      q' = { q with front := Int.tmod (q.front + 1) q.capacity, size := q.size - 1 } ∧
      log = []) ∧
    ((q.buffer.length : Int) = q.capacity → 0 ≤ q.front → q.front < q.capacity →
      dequeue q = .ok (q.buffer.getD q.front.toNat none,
        { q with front := Int.tmod (q.front + 1) q.capacity, size := q.size - 1 }, [])) ∧
    (∀ (x : Int) (fuel : Nat), run fuel [Op.enq x, Op.deq] (createQueue 1)
      = .ok ({ buffer := [some x], capacity := 1, size := 0, front := 0, back := 0 },
             [some x], [])) := by
  have hcond : ¬ (q.size ≤ Int.tdiv q.capacity 4 ∧ q.capacity > 1) := by
    rintro ⟨h1, h2⟩
    rcases hno with h | h <;> omega
  refine ⟨fun item q' log h => dequeue_ok_noshrink q q' item log hcond h, ?_, ?_⟩
  · intro hlen hf0 hf1
    exact dequeue_returns_noshrink q (by omega) hcond hf0 (by omega) (by omega)
  · intro x fuel
    have he : enqueue fuel (createQueue 1) x
        = .ok ({ buffer := [some x], capacity := 1, size := 1, front := 0, back := 0 }, []) := by
      rw [enqueue_notfull fuel (createQueue 1) x (by decide) (by decide) (by decide)
        (by decide)]
      rfl
    simp only [run, he]
    rfl

/-- Witness of C11: capacity 8, four items, `front = 1`. -/
theorem dequeue_without_shrink_witness :
    ((1 : Int) ≤ 4 ∧ (Int.tdiv 8 4 < 4 ∨ (8 : Int) = 1)) ∧
    dequeue { buffer := [some 10, some 20, some 30, some 40, some 50, none, none, none],
              capacity := 8, size := 4, front := 1, back := 4 }
      = .ok (some 20,
             { buffer := [some 10, some 20, some 30, some 40, some 50, none, none, none],
               capacity := 8, size := 3, front := 2, back := 4 }, []) :=
  ⟨⟨by decide, by decide⟩,
   (dequeue_without_shrink
      { buffer := [some 10, some 20, some 30, some 40, some 50, none, none, none],
        capacity := 8, size := 4, front := 1, back := 4 }
      (by decide) (by decide)).2.1 (by decide) (by decide) (by decide)⟩

/-- C13 (evaluation at the failing input): from `createQueue 8`, enqueue 1,
enqueue 2, dequeue reach a state with `size = 1 > 0`, `front = 1`,
`capacity = 4` and `back = 2`, whereas `(front + size - 1) % capacity = 1`; the
slot at `back` was never written and the most recently inserted item, 2, is
in slot 1. -/
theorem back_after_shrink_is_off_by_one :
    run 1 [Op.enq 1, Op.enq 2, Op.deq] (createQueue 8)
      = .ok ({ buffer := [some 1, some 2, none, none], capacity := 4, size := 1,
               front := 1, back := 2 }, [some 1], [LogLine.reducida 4]) ∧
    Int.tmod (1 + 1 - 1) 4 = 1 ∧ (2 : Int) ≠ Int.tmod (1 + 1 - 1) 4 ∧
    ([some 1, some 2, none, none] : List (Option Int)).getD 2 none = none ∧
    ([some 1, some 2, none, none] : List (Option Int)).getD 1 none = some 2 := by
  decide

/-- C14 (evaluation at the failing inputs): on the full wrapped state reached
from `createQueue 2` by enqueue 1, enqueue 2, dequeue, enqueue 3, `enqueue 4`
writes slot 1, which held the logical element 2, and leaves slot
`(front + size) % capacity = 3` unwritten; on the state reached from
`createQueue 8` by enqueue 1, enqueue 2, dequeue (a shrink), `enqueue 3`
writes slot 3 and leaves slot `(front + size) % capacity = 2` unwritten. -/
theorem enqueue_writes_after_back_not_after_contents :
    (run 1 [Op.enq 1, Op.enq 2, Op.deq, Op.enq 3] (createQueue 2)
        = .ok ({ buffer := [some 3, some 2], capacity := 2, size := 2, front := 1, back := 0 },
               [some 1], []) ∧
      slot { buffer := [some 3, some 2], capacity := 2, size := 2, front := 1, back := 0 } 0
        = some 2 ∧
      enqueue 1 { buffer := [some 3, some 2], capacity := 2, size := 2, front := 1, back := 0 } 4
        = .ok ({ buffer := [some 3, some 4, none, none], capacity := 4, size := 3,
                 front := 1, back := 1 }, [LogLine.duplicada 4]) ∧
      Int.tmod (1 + 2) 4 = 3 ∧
      ([some 3, some 4, none, none] : List (Option Int)).getD 3 none = none ∧
      ([some 3, some 4, none, none] : List (Option Int)).getD 1 none = some 4) ∧
    (run 1 [Op.enq 1, Op.enq 2, Op.deq] (createQueue 8)
        = .ok ({ buffer := [some 1, some 2, none, none], capacity := 4, size := 1,
                 front := 1, back := 2 }, [some 1], [LogLine.reducida 4]) ∧
      enqueue 1 { buffer := [some 1, some 2, none, none], capacity := 4, size := 1,
                  front := 1, back := 2 } 3
        = .ok ({ buffer := [some 1, some 2, none, some 3], capacity := 4, size := 2,
                 front := 1, back := 3 }, []) ∧
      Int.tmod (1 + 1) 4 = 2 ∧
      ([some 1, some 2, none, some 3] : List (Option Int)).getD 2 none = none) :=
  ⟨by decide, by decide⟩

/-- C17: when `dequeue` takes the shrink branch on a non-empty queue
(`1 ≤ size ≤ capacity / 4`), `capacity > 1` follows, the old capacity is at
least 4, the new one is at least 2 and at least twice the size before the
removal; every returning `dequeue` then leaves the halved capacity, and every
returning `enqueue` right after it keeps that capacity and logs nothing; both
calls return when the queue is framed. -/
theorem shrink_then_enqueue_does_not_grow (q : CircularQueue) (hs : 1 ≤ q.size)
    (hsh : q.size ≤ Int.tdiv q.capacity 4) :
    q.capacity > 1 ∧ 4 ≤ q.capacity ∧ 2 ≤ Int.tdiv q.capacity 2 ∧
    2 * q.size ≤ Int.tdiv q.capacity 2 ∧
    (∀ item q' log, dequeue q = .ok (item, q', log) →
      q'.capacity = Int.tdiv q.capacity 2 ∧
      log = [LogLine.reducida (Int.tdiv q.capacity 2)] ∧
      ∀ fuel x q'' log2, enqueue fuel q' x = .ok (q'', log2) →
        q''.capacity = q'.capacity ∧ log2 = []) ∧
    (Framed q → ∃ item q' log, dequeue q = .ok (item, q', log) ∧
      ∀ (fuel : Nat) (x : Int), ∃ q'', enqueue fuel q' x = .ok (q'', [])) := by
  have hpos : 0 ≤ q.capacity := by
    by_contra hneg
    have h1 : Int.tdiv q.capacity 4 = -((-q.capacity) / 4) := by
      rw [← tdiv_pos (-q.capacity) 4 (by omega) (by omega), Int.neg_tdiv, Int.neg_neg]
    omega
  have h4 := tdiv_pos q.capacity 4 hpos (by omega)
  have h2 := tdiv_pos q.capacity 2 hpos (by omega)
  rw [h4] at hsh
  refine ⟨by omega, by omega, by rw [h2]; omega, by rw [h2]; omega, ?_, ?_⟩
  · intro item q' log h
    obtain ⟨-, hsz, hcase⟩ := dequeue_ok q q' item log h
    rcases hcase with ⟨-, -, hc, hl⟩ | ⟨hno, -⟩
    · refine ⟨hc, hl, ?_⟩
      intro fuel x q'' log2 he
      have hne : q'.size ≠ q'.capacity := by rw [hsz, hc, h2]; omega
      obtain ⟨e1, -, -, e4⟩ :=
        enqueue_of_growLoop fuel q' q' q'' x [] log2 (growLoop_skip fuel q' [] hne) he
      exact ⟨e1, e4⟩
    · exact absurd ⟨by rw [h4]; exact hsh, by omega⟩ hno
  · intro hq
    obtain ⟨nb, e, hlen, -⟩ := dequeue_shrink q hq hs (by rw [h4]; exact hsh)
    refine ⟨_, _, _, e, ?_⟩
    intro fuel x
    refine ⟨_, enqueue_notfull fuel _ x ?_ ?_ hlen ?_⟩
    · show q.size - 1 ≠ Int.tdiv q.capacity 2
      rw [h2]; omega
    · show 1 ≤ Int.tdiv q.capacity 2
      rw [h2]; omega
    · show -1 ≤ q.size
      omega

/-- Witness of C17: capacity 8, two items stored at slots 7 and 0. -/
theorem shrink_then_enqueue_does_not_grow_witness :
    ((1 : Int) ≤ 2 ∧ (2 : Int) ≤ Int.tdiv 8 4) ∧
    ((8 : Int) > 1 ∧ (4 : Int) ≤ 8 ∧ 2 ≤ Int.tdiv 8 2 ∧ 2 * 2 ≤ Int.tdiv 8 2) ∧
    dequeue { buffer := [some 20, none, none, none, none, none, none, some 10],
              capacity := 8, size := 2, front := 7, back := 0 }
      = .ok (some 10, { buffer := [some 10, some 20, none, none], capacity := 4,
                        size := 1, front := 1, back := 2 }, [LogLine.reducida 4]) ∧
    enqueue 0 { buffer := [some 10, some 20, none, none], capacity := 4,
                size := 1, front := 1, back := 2 } 30
      = .ok ({ buffer := [some 10, some 20, none, some 30], capacity := 4,
               size := 2, front := 1, back := 3 }, []) :=
  have h := shrink_then_enqueue_does_not_grow
    { buffer := [some 20, none, none, none, none, none, none, some 10],
      capacity := 8, size := 2, front := 7, back := 0 } (by decide) (by decide)
  ⟨⟨by decide, by decide⟩, ⟨h.1, h.2.1, h.2.2.1, h.2.2.2.1⟩, by decide, by decide⟩

/-- C18: `createQueue(0)` returns a queue with capacity 0 and size 0; one
execution of the body of the loop of `enqueue` on it gives the same queue
back, with capacity 0 and size 0, so the loop condition holds again; the loop
and `enqueue` run out of fuel whatever the fuel, so `enqueue` never reaches
the write of the item. -/
theorem enqueue_on_capacity_zero_never_stores :
    (createQueue 0).capacity = 0 ∧ (createQueue 0).size = 0 ∧
    growBody (createQueue 0) = createQueue 0 ∧
    (growBody (createQueue 0)).capacity = 0 ∧ (growBody (createQueue 0)).size = 0 ∧
    (growBody (createQueue 0)).size = (growBody (createQueue 0)).capacity ∧
    (∀ fuel log, growLoop (fuel + 1) (createQueue 0) log
      = growLoop fuel (growBody (createQueue 0)) (log ++ [LogLine.duplicada 0])) ∧
    (∀ fuel log, growLoop fuel (createQueue 0) log = .fail .outOfFuel) ∧
    (∀ fuel x, enqueue fuel (createQueue 0) x = .fail .outOfFuel) := by
  refine ⟨rfl, rfl, by decide, by decide, by decide, by decide, ?_, ?_, ?_⟩
  · intro fuel log
    exact growLoop_succ fuel (createQueue 0) log rfl
  · intro fuel log
    exact growLoop_capacity_zero fuel log
  · intro fuel x
    rw [enqueue, growLoop_capacity_zero fuel []]

end Paginacion
